import Mathlib

/-!
# VendorCatalog import pipeline — shallow embedding

A shallow embedding of the import/field-mapping/upsert pipeline of the
VendorCatalog repository, centred on
`VendorCatalog/controllers/import_controller.py` and
`VendorCatalog/models/vendor_product.py`, together with theorems checking the
natural-language specification against it.

Conventions of the embedding:

* Python scalar values flowing through the pipeline are modelled by `Value`;
  Python truthiness (`if item[source_field]:`) by `Value.truthy`.
* Python `dict`s (raw records, canonical records) are modelled by `Record`,
  an insertion-ordered association list; `Record.insert` mirrors dict
  assignment (overwrite in place, else append).
* External I/O (file system reads, HTTP, SFTP transport) is modelled by
  outcome oracles passed as explicit inputs (`FileOutcome`, `ApiOutcome`,
  `DownloadOutcome`): each constructor corresponds to one `except` arm of the
  Python reader, and the `ok` constructor carries the records a successful
  read would produce.  A Python function that catches every exception and
  returns an error tuple becomes a total Lean function on those oracles.
* The catalog store operations invoked by the pipeline
  (`VendorController.get_by_id`, `ProductController.get_by_vendor_sku`,
  `ProductController.create`, `ProductController.update`) are declared
  nowhere under the repository sources; they are modelled from the
  specification of the Catalog Store interface (find-by-identity,
  find-by-natural-key, save returning a generated identity, update by
  identity) — see the doc comments on `Store` and its operations.
-/

namespace VendorCatalog

/-! String helpers.  The embedding uses its own character-list-based
split/trim/case helpers (rather than the `Substring`-based library ones)
so that every definition evaluates by kernel reduction on concrete
inputs. -/

/-- Split a character list at every occurrence of `sep` (Python
`s.split(sep)` for a one-character separator: adjacent separators and
separators at either end produce empty pieces, and the empty string
yields one empty piece). -/
def splitChars (isSep : Char → Bool) : List Char → List (List Char)
  | [] => [[]]
  | c :: t =>
    let rest := splitChars isSep t
    if isSep c then [] :: rest
    else
      match rest with
      | [] => [[c]]
      | h :: t' => (c :: h) :: t'

/-- Python `s.split(sep)` for a one-character separator. -/
def strSplit (s : String) (sep : Char) : List String :=
  (splitChars (fun c => c = sep) s.toList).map String.mk

/-- Split at every character satisfying the predicate. -/
def strSplitAny (s : String) (isSep : Char → Bool) : List String :=
  (splitChars isSep s.toList).map String.mk

/-- Join strings with a separator (Python `sep.join(ss)`). -/
def strJoin (sep : String) : List String → String
  | [] => ""
  | [x] => x
  | x :: xs => x ++ sep ++ strJoin sep xs

/-- The ASCII whitespace characters stripped by Python `str.strip()`. -/
def isSpaceChar (c : Char) : Bool :=
  c = ' ' || c = '\t' || c = '\n' || c = '\x0d' || c = '\x0b' || c = '\x0c'

/-- Python `s.strip()` (over ASCII whitespace). -/
def strTrim (s : String) : String :=
  String.mk ((s.toList.dropWhile isSpaceChar).reverse.dropWhile
    isSpaceChar).reverse

/-- Lowercase one ASCII character. -/
def lowerChar (c : Char) : Char :=
  if 'A' ≤ c ∧ c ≤ 'Z' then Char.ofNat (c.toNat + 32) else c

/-- Python `s.lower()` (over ASCII). -/
def strLower (s : String) : String := String.mk (s.toList.map lowerChar)

/-- Python `s.startswith(p)`. -/
def strStartsWith (s p : String) : Bool := p.toList.isPrefixOf s.toList

/-- Python `s.endswith(p)`. -/
def strEndsWith (s p : String) : Bool := p.toList.isSuffixOf s.toList

/-- Drop the first `n` characters (Python `s[n:]`). -/
def strDrop (s : String) (n : Nat) : String := String.mk (s.toList.drop n)

/-- Drop the last `n` characters (Python `s[:-n]` for `0 < n ≤ len(s)`). -/
def strDropRight (s : String) (n : Nat) : String :=
  String.mk (s.toList.take (s.toList.length - n))

/-- A Python scalar value as it flows through the import pipeline: strings
(CSV/XML/EDI fields), numbers (parsed prices, vendor ids), booleans, and
`None`.  Numbers are carried exactly as rationals. -/
inductive Value where
  | str (s : String)
  | num (q : ℚ)
  | bool (b : Bool)
  | null
deriving DecidableEq, Repr

/-- Python truthiness of a value: empty string, zero, `False` and `None`
are falsy, everything else truthy. -/
def Value.truthy : Value → Bool
  | .str s => !(s == "")
  | .num q => !(q == 0)
  | .bool b => b
  | .null => false

/-- Rendering of a value inside an f-string, after Python `repr`:
strings quoted, booleans capitalised, `None` spelled out. -/
def Value.render : Value → String
  | .str s => "\x27" ++ s ++ "\x27"
  | .num q => if q.den = 1 then toString q.num else toString q
  | .bool b => if b then "True" else "False"
  | .null => "None"

/-- A flat key-value record (a Python `dict` with insertion order). -/
abbrev Record := List (String × Value)

/-- Lookup of a key (`item[k]` / `k in item`). -/
def Record.get? (r : Record) (k : String) : Option Value :=
  (r.find? (fun p => p.1 == k)).map (fun p => p.2)

/-- Dict assignment `r[k] = v`: overwrite in place when the key exists,
append otherwise. -/
def Record.insert (r : Record) (k : String) (v : Value) : Record :=
  if r.any (fun p => p.1 == k) then
    r.map (fun p => if p.1 == k then (k, v) else p)
  else
    r ++ [(k, v)]

/-- Dict truthiness: a record is falsy exactly when it has no entries. -/
def Record.isEmpty (r : Record) : Bool :=
  match r with
  | [] => true
  | _ :: _ => false

/-- Rendering of a record inside an f-string, after Python dict `repr`. -/
def Record.render (r : Record) : String :=
  "\x7b" ++
    strJoin ", " (r.map (fun p => "\x27" ++ p.1 ++ "\x27: " ++ p.2.render)) ++
  "\x7d"

/-- A field mapping: destination field name to ordered list of acceptable
source field names (a Python `dict` of lists, in insertion order). -/
abbrev Mapping := List (String × List String)

/-- The default mapping of `_process_mapped_data`, used when the caller
supplies none. -/
def defaultMapping : Mapping :=
  [("sku", ["sku", "product_id", "item_number", "part_number", "id"]),
   ("name", ["name", "product_name", "title", "description"]),
   ("description", ["description", "long_description", "details"]),
   ("price", ["price", "cost", "wholesale_price", "msrp"]),
   ("category", ["category", "product_type", "type"]),
   ("brand", ["brand", "manufacturer"]),
   ("upc", ["upc", "gtin", "ean", "barcode"]),
   ("weight", ["weight"]),
   ("dimensions", ["dimensions", "size"]),
   ("status", ["status", "availability", "is_active"])]

/-- The inner alias scan of `_process_mapped_data`:
`for source_field in source_fields: if source_field in item and
item[source_field]: ...; break` — the value of the first alias present in
the record with a truthy value, if any. -/
def firstTruthy (aliases : List String) (item : Record) : Option Value :=
  aliases.findSome? (fun a =>
    match item.get? a with
    | some v => if v.truthy then some v else none
    | none => none)

/-- The field-mapping loop of `_process_mapped_data`: for each destination
field, store the first truthy alias value; destinations with no truthy
alias are left out of the canonical record. -/
def applyMapping (mapping : Mapping) (item : Record) : Record :=
  mapping.foldl
    (fun productData e =>
      match firstTruthy e.2 item with
      | some v => productData.insert e.1 v
      | none => productData)
    []

/-- A stored vendor-product row: a generated identity plus the canonical
record written by the pipeline (which includes the `sku` and `vendor_id`
fields). -/
structure Row where
  id : Nat
  data : Record
deriving DecidableEq, Repr

/-- Modelled from the spec: the Catalog Store's vendor-product table.  The
concrete CRUD implementations (`ProductController` and the two backend
model classes it delegates to) are not among the repository sources — only
their caller `_process_mapped_data` is — so the store is modelled from the
spec's Catalog Store interface: an ordered table of rows with generated
identities. -/
structure Store where
  rows : List Row
  nextId : Nat
deriving DecidableEq, Repr

/-- Modelled from the spec: `ProductController.get_by_vendor_sku`
(find-by-natural-key, vendor + vendor-SKU): the first row whose record
carries the given vendor id and SKU. -/
def Store.getByVendorSku (st : Store) (vendorId : Nat) (sku : Value) :
    Option Row :=
  st.rows.find? (fun r =>
    r.data.get? "vendor_id" == some (.num vendorId) &&
    r.data.get? "sku" == some sku)

/-- Modelled from the spec: `ProductController.create`
(save: insert, returns generated identity). -/
def Store.createRow (st : Store) (data : Record) : Store × Nat :=
  ({ rows := st.rows ++ [⟨st.nextId, data⟩], nextId := st.nextId + 1 },
   st.nextId)

/-- Modelled from the spec: `ProductController.update` (update by identity):
replace the data of the row with the given identity, keeping the identity. -/
def Store.updateRow (st : Store) (rowId : Nat) (data : Record) : Store :=
  { st with rows := st.rows.map (fun r => if r.id = rowId then ⟨r.id, data⟩ else r) }

/-- Number of vendor-product rows belonging to a vendor. -/
def Store.vendorRowCount (st : Store) (vendorId : Nat) : Nat :=
  (st.rows.filter (fun r =>
    r.data.get? "vendor_id" == some (.num vendorId))).length

/-- Modelled from the spec: the environment seen by the pipeline — the set
of existing vendors (`VendorController.get_by_id` is find-by-identity over
it) and the vendor-product store. -/
structure Env where
  vendors : List Nat
  store : Store
deriving DecidableEq, Repr

/-- The error text of the missing-sku check (`Missing required field ... for item: ...`). -/
def skuError (item : Record) : String :=
  "Missing required field \x27sku\x27 for item: " ++ item.render

/-- The error text of the missing-name check (`Missing required field ... for item: ...`). -/
def nameError (item : Record) : String :=
  "Missing required field \x27name\x27 for item: " ++ item.render

/-- The error text of the failed vendor lookup (`Vendor with ID ... not found`). -/
def vendorNotFoundError (vendorId : Nat) : String :=
  "Vendor with ID " ++ toString vendorId ++ " not found"

/-- The loop body of `_process_mapped_data` for one raw record: apply the
mapping, reject (appending one error) when `sku` or `name` is missing or
falsy, otherwise set `vendor_id`, look up the existing row by
(vendor, sku) and update it in place or insert a new row, incrementing the
success counter.  The state threaded through the loop is
(imported count, error list, store). -/
def processItem (vendorId : Nat) (mapping : Mapping)
    (st : Nat × List String × Store) (item : Record) :
    Nat × List String × Store :=
  let (count, errors, store) := st
  let productData := applyMapping mapping item
  match productData.get? "sku" with
  | none => (count, errors ++ [skuError item], store)
  | some sv =>
    if !sv.truthy then (count, errors ++ [skuError item], store)
    else
      match productData.get? "name" with
      | none => (count, errors ++ [nameError item], store)
      | some nv =>
        if !nv.truthy then (count, errors ++ [nameError item], store)
        else
          let productData := productData.insert "vendor_id" (.num vendorId)
          match store.getByVendorSku vendorId sv with
          | some existing =>
            (count + 1, errors, store.updateRow existing.id productData)
          | none =>
            (count + 1, errors, (store.createRow productData).1)

/-- Embeds `if not mapping:` — substitute the default mapping when the supplied
one is empty (Python-falsy). -/
def effectiveMapping (mapping : Mapping) : Mapping :=
  if mapping.isEmpty then defaultMapping else mapping

/-- Embeds `_process_mapped_data`: substitute the default mapping when the given
one is empty, abort with a single error when the vendor does not exist,
otherwise fold the per-record step over the batch.  Returns (imported
count, error list) plus the resulting store. -/
def processMappedData (data : List Record) (vendorId : Nat)
    (mapping : Mapping) (env : Env) : Nat × List String × Store :=
  let mapping := effectiveMapping mapping
  if !(env.vendors.contains vendorId) then
    (0, [vendorNotFoundError vendorId], env.store)
  else
    data.foldl (processItem vendorId mapping) (0, [], env.store)

/-- Outcome oracle for reading a local file: one constructor per `except`
arm of the file readers (`FileNotFoundError`, the format-specific parse
error, any other exception), with `ok` carrying the records a successful
read and parse would produce. -/
inductive FileOutcome where
  | notFound
  | parseError (e : String)
  | otherError (e : String)
  | ok (records : List Record)
deriving DecidableEq, Repr

/-- Whether a file outcome is one of the failure arms. -/
def FileOutcome.failing : FileOutcome → Bool
  | .ok _ => false
  | _ => true

/-- Embeds `_import_from_csv`: on success, feed the parsed rows into
`_process_mapped_data`; `FileNotFoundError` and all other exceptions
(including CSV parse errors) become error tuples. -/
def importFromCsv (filePath : String) (outcome : FileOutcome)
    (vendorId : Nat) (mapping : Mapping) (env : Env) :
    Nat × List String × Store :=
  match outcome with
  | .notFound => (0, ["File not found: " ++ filePath], env.store)
  | .parseError e => (0, ["Error importing from CSV: " ++ e], env.store)
  | .otherError e => (0, ["Error importing from CSV: " ++ e], env.store)
  | .ok records => processMappedData records vendorId mapping env

/-- Embeds `_import_from_excel`: as for CSV, with the Excel error text. -/
def importFromExcel (filePath : String) (outcome : FileOutcome)
    (vendorId : Nat) (mapping : Mapping) (env : Env) :
    Nat × List String × Store :=
  match outcome with
  | .notFound => (0, ["File not found: " ++ filePath], env.store)
  | .parseError e => (0, ["Error importing from Excel: " ++ e], env.store)
  | .otherError e => (0, ["Error importing from Excel: " ++ e], env.store)
  | .ok records => processMappedData records vendorId mapping env

/-- Embeds `_import_from_json`: `json.JSONDecodeError` has its own message; the
array / `items` / `products` / single-object dispatch happens while
producing the records of a successful read and is absorbed into the `ok`
oracle. -/
def importFromJson (filePath : String) (outcome : FileOutcome)
    (vendorId : Nat) (mapping : Mapping) (env : Env) :
    Nat × List String × Store :=
  match outcome with
  | .notFound => (0, ["File not found: " ++ filePath], env.store)
  | .parseError _ => (0, ["Invalid JSON format in file: " ++ filePath], env.store)
  | .otherError e => (0, ["Error importing from JSON: " ++ e], env.store)
  | .ok records => processMappedData records vendorId mapping env

/-- Embeds `_import_from_xml`: `ET.ParseError` has its own message; the candidate
element-path probing happens while producing the records of a successful
read and is absorbed into the `ok` oracle. -/
def importFromXml (filePath : String) (outcome : FileOutcome)
    (vendorId : Nat) (mapping : Mapping) (env : Env) :
    Nat × List String × Store :=
  match outcome with
  | .notFound => (0, ["File not found: " ++ filePath], env.store)
  | .parseError _ => (0, ["Invalid XML format in file: " ++ filePath], env.store)
  | .otherError e => (0, ["Error importing from XML: " ++ e], env.store)
  | .ok records => processMappedData records vendorId mapping env

/-- The extension of a path as computed by
`os.path.splitext(file_path)[1]`: the suffix of the final path component
from its last dot, provided some non-dot character precedes that dot
(leading dots of the component never start an extension). -/
def fileExtension (path : String) : String :=
  let base := (strSplit path '/').getLastD ""
  let cs := base.toList
  match cs.reverse.findIdx? (fun c => c = '.') with
  | some k =>
    let i := cs.length - 1 - k
    if (cs.take i).any (fun c => !(c == '.')) then String.mk (cs.drop i)
    else ""
  | none => ""

/-- Embeds `import_from_file`: dispatch on the lowercased file extension, with an
error tuple for unsupported formats. -/
def importFromFile (filePath : String) (outcome : FileOutcome)
    (vendorId : Nat) (mapping : Mapping) (env : Env) :
    Nat × List String × Store :=
  let fileExt := strLower (fileExtension filePath)
  if fileExt = ".csv" then importFromCsv filePath outcome vendorId mapping env
  else if fileExt = ".xlsx" ∨ fileExt = ".xls" then
    importFromExcel filePath outcome vendorId mapping env
  else if fileExt = ".json" then importFromJson filePath outcome vendorId mapping env
  else if fileExt = ".xml" then importFromXml filePath outcome vendorId mapping env
  else (0, ["Unsupported file format: " ++ fileExt], env.store)

/-- Outcome oracle for the HTTP API reader: one constructor per `except`
arm of `import_from_api` (`requests.RequestException`,
`json.JSONDecodeError`, any other exception), with `ok` carrying the items
extracted (and, when paginated, concatenated across pages) by a successful
exchange. -/
inductive ApiOutcome where
  | requestFailed (e : String)
  | notJson
  | otherError (e : String)
  | ok (items : List Record)
deriving DecidableEq, Repr

/-- Whether an API outcome is one of the failure arms. -/
def ApiOutcome.failing : ApiOutcome → Bool
  | .ok _ => false
  | _ => true

/-- Embeds `import_from_api`: on success the extracted items go through
`_process_api_data`, which is `_process_mapped_data`; each failure arm
becomes an error tuple. -/
def importFromApi (outcome : ApiOutcome) (vendorId : Nat)
    (mapping : Mapping) (env : Env) : Nat × List String × Store :=
  match outcome with
  | .requestFailed e => (0, ["API request failed: " ++ e], env.store)
  | .notJson => (0, ["API response is not valid JSON"], env.store)
  | .otherError e => (0, ["Unexpected error during API import: " ++ e], env.store)
  | .ok items => processMappedData items vendorId mapping env

/-- Whether `sub` occurs as a contiguous sublist of `l` (Python's
`sub in s` on strings, over the character lists). -/
def charsContain (sub : List Char) : List Char → Bool
  | [] => sub.isEmpty
  | c :: t => sub.isPrefixOf (c :: t) || charsContain sub t

/-- Embeds `_matches_pattern`: the SFTP reader's simple wildcard matching. -/
def matchesPattern (filename : String) (pat : String) : Bool :=
  if pat = "*" then true
  else if strStartsWith pat "*" ∧ strEndsWith pat "*" then
    charsContain (strDropRight (strDrop pat 1) 1).toList filename.toList
  else if strStartsWith pat "*" then strEndsWith filename (strDrop pat 1)
  else if strEndsWith pat "*" then strStartsWith filename (strDropRight pat 1)
  else filename = pat

/-- Outcome oracle for downloading one remote file over SFTP: `ok` carries
the file outcome the local temporary copy will produce when fed to
`import_from_file`; `fail` is a transport error raised by `retrbinary`
after `open(temp_file, mode wb)` has already created the local file. -/
inductive DownloadOutcome where
  | fail (e : String)
  | ok (content : FileOutcome)
deriving DecidableEq, Repr

/-- Outcome oracle for the SFTP connection phase (`connect`, `login`,
`cwd`, `nlst`): either a transport failure or the directory listing, each
filename paired with the outcome of downloading it. -/
inductive SftpConn where
  | connectFail (e : String)
  | ok (listing : List (String × DownloadOutcome))
deriving DecidableEq, Repr

/-- The temporary path `f"temp_\x7bfile\x7d"` used for a downloaded file. -/
def tempName (file : String) : String := "temp_" ++ file

/-- The per-file loop of `import_from_sftp`, with the set of temporary
files currently on disk threaded through explicitly (as a duplicate-free
list: `open(..., mode wb)` truncates an existing file, `os.remove` deletes
the path).  A download failure propagates to the reader's `except` arm,
which returns `(0, [error])` discarding the running totals — and skips the
`os.remove` of the file just created. -/
def sftpLoop (files : List (String × DownloadOutcome)) (vendorId : Nat)
    (mapping : Mapping) (env : Env) (totalImported : Nat)
    (allErrors : List String) (tempFiles : List String) :
    (Nat × List String × Store) × List String :=
  match files with
  | [] => ((totalImported, allErrors, env.store), tempFiles)
  | (file, .fail e) :: _ =>
    let tempFiles := if tempFiles.contains (tempName file) then tempFiles
                     else tempFiles ++ [tempName file]
    ((0, ["SFTP error: " ++ e], env.store), tempFiles)
  | (file, .ok content) :: rest =>
    let temp := tempName file
    let tempFiles := if tempFiles.contains temp then tempFiles
                     else tempFiles ++ [temp]
    let (imported, errors, store) :=
      importFromFile temp content vendorId mapping env
    let tempFiles := tempFiles.filter (fun f => !(f == temp))
    sftpLoop rest vendorId mapping { env with store := store }
      (totalImported + imported) (allErrors ++ errors) tempFiles

/-- Embeds `import_from_sftp`: connect, filter the listing through
`_matches_pattern`, bail out when nothing matches, then run the per-file
download/import/remove loop.  The second component of the result is the
list of temporary files still on disk when the reader returns. -/
def importFromSftp (filePattern : String) (conn : SftpConn)
    (vendorId : Nat) (mapping : Mapping) (env : Env) :
    (Nat × List String × Store) × List String :=
  match conn with
  | .connectFail e => ((0, ["SFTP error: " ++ e], env.store), [])
  | .ok listing =>
    let files := listing.filter (fun f => matchesPattern f.1 filePattern)
    if files.isEmpty then
      ((0, ["No matching files found on SFTP server"], env.store), [])
    else
      sftpLoop files vendorId mapping env 0 [] []

/-- The first download failure in a listing, with its filename and error
message, if any. -/
def firstFail : List (String × DownloadOutcome) → Option (String × String)
  | [] => none
  | (file, .fail e) :: _ => some (file, e)
  | (_, .ok _) :: rest => firstFail rest

/-- The temporary file a run over the listing leaves on disk: none when
every download succeeds, the temp copy of the first failing file
otherwise. -/
def firstFailTemp : List (String × DownloadOutcome) → List String
  | [] => []
  | (file, .fail _) :: _ => [tempName file]
  | (_, .ok _) :: rest => firstFailTemp rest

/-- The numeric value of a non-empty string of decimal digits, `none`
otherwise. -/
def parseDigits? (s : String) : Option Nat :=
  if s.toList ≠ [] ∧ s.toList.all Char.isDigit then
    some (s.toList.foldl (fun a c => a * 10 + (c.toNat - 48)) 0)
  else none

/-- An optionally signed string of decimal digits, as an integer. -/
def parseSignedDigits? (s : String) : Option Int :=
  if strStartsWith s "-" then
    (parseDigits? (strDrop s 1)).map (fun n => -(n : Int))
  else if strStartsWith s "+" then
    (parseDigits? (strDrop s 1)).map (fun n => (n : Int))
  else (parseDigits? s).map (fun n => (n : Int))

/-- The fixed-point part of a decimal literal: optional sign, then either
plain digits or digits around a single dot with at least one digit
present. -/
def parseFixed? (s : String) : Option ℚ :=
  let (sign, body) :=
    if strStartsWith s "-" then ((-1 : ℚ), strDrop s 1)
    else if strStartsWith s "+" then ((1 : ℚ), strDrop s 1)
    else ((1 : ℚ), s)
  match strSplit body '.' with
  | [ip] => (parseDigits? ip).map (fun n => sign * n)
  | [ip, fp] =>
    if ip = "" ∧ fp = "" then none
    else
      match parseDigits? (if ip = "" then "0" else ip),
            parseDigits? (if fp = "" then "0" else fp) with
      | some i, some f =>
        some (sign * ((i : ℚ) + (f : ℚ) / (10 : ℚ) ^ fp.length))
      | _, _ => none
  | _ => none

/-- Python `float(s)` on decimal literals: surrounding whitespace stripped,
optional sign, digits with an optional fractional part, optional decimal
exponent.  (The `inf`/`nan` spellings and digit-group underscores accepted
by `float` are not modelled; no claim exercises them.  Values are exact
rationals, so binary rounding is not modelled either — both the embedded
parser and the spec-level EDI description below use this same parse, and
the claims under check are insensitive to it.) -/
def parseFloat? (s : String) : Option ℚ :=
  let t := strTrim s
  match strSplitAny t (fun c => c = 'e' || c = 'E') with
  | [m] => parseFixed? m
  | [m, ex] =>
    match parseFixed? m, parseSignedDigits? ex with
    | some q, some e => some (q * (10 : ℚ) ^ e)
    | _, _ => none
  | _ => none

/-- The per-segment body of the `for segment in segments` loop of
`import_from_edi`, acting on the state (flushed products, product under
construction).  Blank segments are skipped; `LIN` flushes a non-empty
current product and starts over, seeding `sku` from element 3 when the
segment has one; `PID` sets `name` from element 5; `CTP` sets `price` to
the parsed element 3, leaving the product untouched when the parse fails;
other segment ids are ignored. -/
def ediStep (st : List Record × Record) (segment : String) :
    List Record × Record :=
  if strTrim segment = "" then st
  else
    let (productsData, currentProduct) := st
    let elements := strSplit segment '*'
    let segmentId := elements.headD ""
    if segmentId = "LIN" then
      let productsData :=
        if currentProduct.isEmpty then productsData
        else productsData ++ [currentProduct]
      match elements.get? 3 with
      | some e => (productsData, Record.insert [] "sku" (.str e))
      | none => (productsData, [])
    else if segmentId = "PID" then
      match elements.get? 5 with
      | some e => (productsData, currentProduct.insert "name" (.str e))
      | none => (productsData, currentProduct)
    else if segmentId = "CTP" then
      match elements.get? 3 with
      | some e =>
        match parseFloat? e with
        | some q => (productsData, currentProduct.insert "price" (.num q))
        | none => (productsData, currentProduct)
      | none => (productsData, currentProduct)
    else (productsData, currentProduct)

/-- The segment-extraction phase of `import_from_edi`: split the raw text
on `~`, run the per-segment loop, and flush the last product under
construction when it is non-empty. -/
def ediExtract (ediData : String) : List Record :=
  let segments := strSplit ediData '~'
  let (productsData, currentProduct) := segments.foldl ediStep ([], [])
  if currentProduct.isEmpty then productsData
  else productsData ++ [currentProduct]

/-- Embeds `import_from_edi`: parse the segments and feed the extracted products
into `_process_mapped_data`.  (The surrounding `try` never fires: the
parsing phase is total.) -/
def importFromEdi (ediData : String) (vendorId : Nat) (mapping : Mapping)
    (env : Env) : Nat × List String × Store :=
  processMappedData (ediExtract ediData) vendorId mapping env

/-- Flushing an open product into the output: a product with no
accumulated fields was never opened, so nothing is emitted for it. -/
def ediFlush (currentProduct : Record) : List Record :=
  if currentProduct.isEmpty then [] else [currentProduct]

/-- Seeding a fresh product from a `LIN` segment: `sku` from element
position 3 when present. -/
def ediSeedSku (elements : List String) : Record :=
  match elements.get? 3 with
  | some e => Record.insert [] "sku" (.str e)
  | none => []

/-- Embeds `PID`: set `name` from element position 5 when present. -/
def ediSetName (elements : List String) (currentProduct : Record) : Record :=
  match elements.get? 5 with
  | some e => currentProduct.insert "name" (.str e)
  | none => currentProduct

/-- Embeds `CTP`: set `price` by numeric parse of element position 3, leaving the
price unset on parse failure. -/
def ediSetPrice (elements : List String) (currentProduct : Record) : Record :=
  match elements.get? 3 with
  | some e =>
    match parseFloat? e with
    | some q => currentProduct.insert "price" (.num q)
    | none => currentProduct
  | none => currentProduct

/-- Spec-level description of the EDI segment walk, written from the
claim's words for comparison with `ediExtract`: each `LIN` segment flushes
any open product into the output and starts a new one, `PID`/`CTP` edit
the open product, and the last open product at end-of-input is flushed. -/
def ediSpecGo : List String → Record → List Record
  | [], currentProduct => ediFlush currentProduct
  | seg :: rest, currentProduct =>
    if strTrim seg = "" then ediSpecGo rest currentProduct
    else
      let elements := strSplit seg '*'
      if elements.headD "" = "LIN" then
        ediFlush currentProduct ++ ediSpecGo rest (ediSeedSku elements)
      else if elements.headD "" = "PID" then
        ediSpecGo rest (ediSetName elements currentProduct)
      else if elements.headD "" = "CTP" then
        ediSpecGo rest (ediSetPrice elements currentProduct)
      else ediSpecGo rest currentProduct

/-- Spec-level EDI extraction: split on `~` and walk the segments with no
open product. -/
def ediExtractSpec (ediData : String) : List Record :=
  ediSpecGo (strSplit ediData '~') []

/-- The keys `VendorProduct.bulk_insert` promotes to named columns; every
other key of the product record goes into the `props` bag. -/
def bulkFixedKeys : List String :=
  ["sku", "price", "list", "map", "mrp", "qty", "qtynj", "qtyfl",
   "eta", "etanj", "etafl", "wt", "bh", "bl", "bw"]

/-- The `props` dict built by `VendorProduct.bulk_insert` for one product:
all items whose key is not one of the promoted column keys, kept
verbatim. -/
def bulkProps (product : Record) : Record :=
  product.filter (fun p => !(bulkFixedKeys.contains p.1))

/-- The empty store and an environment owning vendor 1, used as concrete
inputs. -/
def store0 : Store := ⟨[], 1⟩

/-- Environment with vendor 1 and an empty store. -/
def env0 : Env := ⟨[1], store0⟩

/-! Helper lemmas. -/

theorem find_overwrite_hit (k : String) (v : Value) :
    ∀ (s : Record), s.any (fun p => p.1 == k) = true →
      List.find? (fun p => p.1 == k)
        (s.map (fun p => if p.1 == k then (k, v) else p)) = some (k, v) := by
  intro s
  induction s with
  | nil => simp
  | cons p t ih =>
    intro h
    by_cases hp : (p.1 == k) = true
    · simp [List.find?, hp]
    · simp only [List.any_cons, Bool.or_eq_true] at h
      rcases h with h | h
      · exact absurd h hp
      · have hp' : (p.1 == k) = false := by simpa using hp
        simp only [List.map_cons]
        rw [show (if (p.1 == k) = true then (k, v) else p) = p from
          if_neg (by simp [hp'])]
        simp only [List.find?, hp']
        exact ih h

theorem find_append_miss (k : String) (v : Value) :
    ∀ (s : Record), s.any (fun p => p.1 == k) = false →
      (s ++ [(k, v)]).find? (fun p => p.1 == k) = some (k, v) := by
  intro s
  induction s with
  | nil => simp [List.find?]
  | cons p t ih =>
    intro h
    simp only [List.any_cons, Bool.or_eq_false_iff] at h
    simp only [List.cons_append, List.find?, h.1]
    exact ih h.2

theorem find_overwrite_other (k t : String) (v : Value) (h : k ≠ t) :
    ∀ (s : Record),
      List.find? (fun p => p.1 == t)
        (s.map (fun p => if p.1 == k then (k, v) else p)) =
      List.find? (fun p => p.1 == t) s := by
  intro s
  induction s with
  | nil => simp
  | cons p rest ih =>
    by_cases hp : (p.1 == k) = true
    · have hpk : p.1 = k := by simpa using hp
      have hpt : (p.1 == t) = false := by
        simp only [beq_eq_false_iff_ne, ne_eq, hpk]; exact h
      have hkt : (k == t) = false := by simpa using h
      simp only [List.map_cons, List.find?, if_pos hp, hkt, hpt]
      exact ih
    · simp only [List.map_cons, List.find?, if_neg hp]
      by_cases hpt : (p.1 == t) = true
      · simp [hpt]
      · simp only [Bool.not_eq_true] at hpt
        simp only [hpt]
        exact ih

theorem find_append_other (k t : String) (v : Value) (h : k ≠ t) :
    ∀ (s : Record),
      List.find? (fun p => p.1 == t) (s ++ [(k, v)]) =
      List.find? (fun p => p.1 == t) s := by
  intro s
  induction s with
  | nil =>
    have hkt : (k == t) = false := by simpa using h
    simp [List.find?, hkt]
  | cons p rest ih =>
    simp only [List.cons_append, List.find?]
    by_cases hpt : (p.1 == t) = true
    · simp [hpt]
    · simp only [Bool.not_eq_true] at hpt
      simp only [hpt]
      exact ih

theorem Record.get_insert_self (r : Record) (k : String) (v : Value) :
    (r.insert k v).get? k = some v := by
  unfold Record.insert Record.get?
  cases h : r.any (fun p => p.1 == k) with
  | true => rw [if_pos rfl, find_overwrite_hit k v r h]; rfl
  | false => rw [if_neg (by simp), find_append_miss k v r h]; rfl

theorem Record.get_insert_ne (r : Record) (k : String) (v : Value)
    (t : String) (h : k ≠ t) : (r.insert k v).get? t = r.get? t := by
  unfold Record.insert Record.get?
  cases hm : r.any (fun p => p.1 == k) with
  | true => rw [if_pos rfl, find_overwrite_other k t v h r]
  | false => rw [if_neg (by simp), find_append_other k t v h r]

/-- If no mapping entry for destination `t` has a truthy alias, the
canonical record omits `t`. -/
theorem applyMapping_get_none (mapping : Mapping) (item : Record)
    (t : String)
    (h : ∀ e ∈ mapping, e.1 = t → firstTruthy e.2 item = none) :
    (applyMapping mapping item).get? t = none := by
  unfold applyMapping
  have main : ∀ (m : Mapping) (pd : Record),
      (∀ e ∈ m, e.1 = t → firstTruthy e.2 item = none) →
      pd.get? t = none →
      (m.foldl (fun pd e =>
        match firstTruthy e.2 item with
        | some v => pd.insert e.1 v
        | none => pd) pd).get? t = none := by
    intro m
    induction m with
    | nil => intro pd _ hpd; simpa using hpd
    | cons e rest ih =>
      intro pd hm hpd
      simp only [List.foldl_cons]
      apply ih
      · intro e' he' ht; exact hm e' (List.mem_cons_of_mem _ he') ht
      · match hv : firstTruthy e.2 item with
        | none => simpa using hpd
        | some v =>
          simp only
          by_cases het : e.1 = t
          · exact absurd hv (by simp [hm e (List.mem_cons_self e rest) het])
          · rw [Record.get_insert_ne _ _ _ _ het]; exact hpd
  exact main mapping [] h (by simp [Record.get?, List.find?])

theorem processItem_sku_none (vendorId : Nat) (mapping : Mapping)
    (count : Nat) (errors : List String) (store : Store) (item : Record)
    (h : (applyMapping mapping item).get? "sku" = none) :
    processItem vendorId mapping (count, errors, store) item =
      (count, errors ++ [skuError item], store) := by
  unfold processItem
  simp only [h]

theorem processItem_sku_falsy (vendorId : Nat) (mapping : Mapping)
    (count : Nat) (errors : List String) (store : Store) (item : Record)
    (sv : Value) (h : (applyMapping mapping item).get? "sku" = some sv)
    (ht : sv.truthy = false) :
    processItem vendorId mapping (count, errors, store) item =
      (count, errors ++ [skuError item], store) := by
  unfold processItem
  simp only [h, ht]
  rfl

theorem processItem_name_none (vendorId : Nat) (mapping : Mapping)
    (count : Nat) (errors : List String) (store : Store) (item : Record)
    (sv : Value) (hs : (applyMapping mapping item).get? "sku" = some sv)
    (hst : sv.truthy = true)
    (h : (applyMapping mapping item).get? "name" = none) :
    processItem vendorId mapping (count, errors, store) item =
      (count, errors ++ [nameError item], store) := by
  unfold processItem
  simp only [hs, hst, h]
  rfl

theorem processItem_name_falsy (vendorId : Nat) (mapping : Mapping)
    (count : Nat) (errors : List String) (store : Store) (item : Record)
    (sv nv : Value) (hs : (applyMapping mapping item).get? "sku" = some sv)
    (hst : sv.truthy = true)
    (h : (applyMapping mapping item).get? "name" = some nv)
    (hnt : nv.truthy = false) :
    processItem vendorId mapping (count, errors, store) item =
      (count, errors ++ [nameError item], store) := by
  unfold processItem
  simp only [hs, hst, h, hnt]
  rfl

theorem processItem_update (vendorId : Nat) (mapping : Mapping)
    (count : Nat) (errors : List String) (store : Store) (item : Record)
    (sv nv : Value) (row : Row)
    (hs : (applyMapping mapping item).get? "sku" = some sv)
    (hst : sv.truthy = true)
    (hn : (applyMapping mapping item).get? "name" = some nv)
    (hnt : nv.truthy = true)
    (hrow : store.getByVendorSku vendorId sv = some row) :
    processItem vendorId mapping (count, errors, store) item =
      (count + 1, errors,
       store.updateRow row.id
         ((applyMapping mapping item).insert "vendor_id" (.num vendorId))) := by
  unfold processItem
  simp only [hs, hst, hn, hnt, hrow]
  rfl

theorem processItem_insert (vendorId : Nat) (mapping : Mapping)
    (count : Nat) (errors : List String) (store : Store) (item : Record)
    (sv nv : Value)
    (hs : (applyMapping mapping item).get? "sku" = some sv)
    (hst : sv.truthy = true)
    (hn : (applyMapping mapping item).get? "name" = some nv)
    (hnt : nv.truthy = true)
    (hrow : store.getByVendorSku vendorId sv = none) :
    processItem vendorId mapping (count, errors, store) item =
      (count + 1, errors,
       (store.createRow
         ((applyMapping mapping item).insert "vendor_id" (.num vendorId))).1) := by
  unfold processItem
  simp only [hs, hst, hn, hnt, hrow]
  rfl

/-- Each record contributes exactly one success or exactly one error. -/
theorem processItem_count (vendorId : Nat) (mapping : Mapping)
    (count : Nat) (errors : List String) (store : Store) (item : Record) :
    (processItem vendorId mapping (count, errors, store) item).1 +
      (processItem vendorId mapping (count, errors, store) item).2.1.length =
    count + errors.length + 1 := by
  unfold processItem
  cases hs : (applyMapping mapping item).get? "sku" with
  | none => simp [hs]; omega
  | some sv =>
    cases hst : sv.truthy with
    | false => simp [hs, hst]; omega
    | true =>
      cases hn : (applyMapping mapping item).get? "name" with
      | none => simp [hs, hst, hn]; omega
      | some nv =>
        cases hnt : nv.truthy with
        | false => simp [hs, hst, hn, hnt]; omega
        | true =>
          cases hrow : store.getByVendorSku vendorId sv with
          | none => simp [hs, hst, hn, hnt, hrow]; omega
          | some row => simp [hs, hst, hn, hnt, hrow]; omega

/-- The per-record step never inspects the accumulated errors: a prefix of
earlier errors rides along unchanged. -/
theorem processItem_error_front (vendorId : Nat) (mapping : Mapping)
    (front : List String) (count : Nat) (errors : List String)
    (store : Store) (item : Record) :
    processItem vendorId mapping (count, front ++ errors, store) item =
      ((processItem vendorId mapping (count, errors, store) item).1,
       front ++ (processItem vendorId mapping (count, errors, store) item).2.1,
       (processItem vendorId mapping (count, errors, store) item).2.2) := by
  unfold processItem
  cases hs : (applyMapping mapping item).get? "sku" with
  | none => simp [hs]
  | some sv =>
    cases hst : sv.truthy with
    | false => simp [hs, hst]
    | true =>
      cases hn : (applyMapping mapping item).get? "name" with
      | none => simp [hs, hst, hn]
      | some nv =>
        cases hnt : nv.truthy with
        | false => simp [hs, hst, hn, hnt]
        | true =>
          cases hrow : store.getByVendorSku vendorId sv with
          | none => simp [hs, hst, hn, hnt, hrow]
          | some row => simp [hs, hst, hn, hnt, hrow]

/-- The batch fold with an error prefix on the initial state. -/
theorem foldl_error_front (vendorId : Nat) (mapping : Mapping)
    (front : List String) :
    ∀ (data : List Record) (count : Nat) (errors : List String)
      (store : Store),
      List.foldl (processItem vendorId mapping)
          (count, front ++ errors, store) data =
        ((List.foldl (processItem vendorId mapping)
            (count, errors, store) data).1,
         front ++ (List.foldl (processItem vendorId mapping)
            (count, errors, store) data).2.1,
         (List.foldl (processItem vendorId mapping)
            (count, errors, store) data).2.2) := by
  intro data
  induction data with
  | nil => intro count errors store; rfl
  | cons item rest ih =>
    intro count errors store
    simp only [List.foldl_cons]
    rw [processItem_error_front]
    rw [ih]

/-- The batch fold adds one success or one error per record. -/
theorem foldl_count (vendorId : Nat) (mapping : Mapping) :
    ∀ (data : List Record) (count : Nat) (errors : List String)
      (store : Store),
      (List.foldl (processItem vendorId mapping)
          (count, errors, store) data).1 +
        (List.foldl (processItem vendorId mapping)
          (count, errors, store) data).2.1.length =
      count + errors.length + data.length := by
  intro data
  induction data with
  | nil => intro count errors store; simp
  | cons item rest ih =>
    intro count errors store
    simp only [List.foldl_cons]
    have h1 := processItem_count vendorId mapping count errors store item
    rcases hstep : processItem vendorId mapping (count, errors, store) item
      with ⟨c', e', s'⟩
    rw [hstep] at h1
    simp at h1
    have h2 := ih c' e' s'
    simp only [List.length_cons]
    omega

/-- C10: when the vendor lookup finds no vendor for the target vendor id,
the per-record import returns `(0, [vendor-not-found error])` and leaves
the store untouched, regardless of the batch contents: the whole batch is
aborted before any record is processed. -/
theorem vendor_missing_aborts_batch (data : List Record) (vendorId : Nat)
    (mapping : Mapping) (env : Env)
    (h : env.vendors.contains vendorId = false) :
    processMappedData data vendorId mapping env =
      (0, [vendorNotFoundError vendorId], env.store) := by
  unfold processMappedData
  rw [h]
  simp

/-- Witness for C10: importing one well-formed record for missing vendor 2
returns the single vendor-not-found error and writes nothing. -/
theorem vendor_missing_aborts_batch_witness :
    processMappedData [[("sku", Value.str "A"), ("name", Value.str "B")]]
        2 [] env0 =
      (0, [vendorNotFoundError 2], store0) :=
  vendor_missing_aborts_batch
    [[("sku", Value.str "A"), ("name", Value.str "B")]] 2 [] env0 (by decide)

/-- C5: for every destination field, the first alias present with a truthy
value wins and later aliases are never consulted (the result does not
depend on what follows the winning alias); under the default mapping a
record with both `sku` and `product_id` non-empty takes its canonical
`sku` from `sku`. -/
theorem first_alias_wins :
    (∀ (item : Record) (pre post : List String) (a : String) (v : Value),
      (∀ b ∈ pre, ∀ w, item.get? b = some w → w.truthy = false) →
      item.get? a = some v → v.truthy = true →
      firstTruthy (pre ++ a :: post) item = some v) ∧
    (applyMapping defaultMapping
      [("sku", .str "S1"), ("product_id", .str "P1"),
       ("name", .str "N")]).get? "sku" = some (.str "S1") := by
  constructor
  · intro item pre post a v hpre ha hv
    induction pre with
    | nil =>
      simp [firstTruthy, List.findSome?, ha, hv]
    | cons b pre' ih =>
      have step : ∀ (l : List String), firstTruthy (b :: l) item = firstTruthy l item := by
        intro l
        unfold firstTruthy
        simp only [List.findSome?]
        match hb : item.get? b with
        | none => simp
        | some w =>
          have := hpre b (List.mem_cons_self b pre') w hb
          simp [this]
      rw [List.cons_append, step]
      exact ih (fun b' hb' => hpre b' (List.mem_cons_of_mem _ hb'))
  · decide

/-- Witness for C5: with `product_id` listed after `sku`, a record holding
both takes the `sku` value. -/
theorem first_alias_wins_witness :
    firstTruthy ["sku", "product_id"]
      [("sku", Value.str "S1"), ("product_id", Value.str "P1")] =
      some (Value.str "S1") :=
  first_alias_wins.1
    [("sku", Value.str "S1"), ("product_id", Value.str "P1")]
    [] ["product_id"] "sku" (Value.str "S1")
    (by intro b hb; cases hb) (by decide) (by decide)

/-- C9: an alias whose value is present but falsy is treated exactly like
an absent alias: the scan falls through to the next alias; if every alias
value is falsy, the destination field is omitted from the canonical
record; a record whose `price` is the number 0 takes its canonical price
from `cost`; and a record whose sole sku alias holds 0 is rejected as
missing `sku`, writing nothing. -/
theorem falsy_alias_skipped :
    (∀ (a : String) (rest : List String) (item : Record) (v : Value),
      item.get? a = some v → v.truthy = false →
      firstTruthy (a :: rest) item = firstTruthy rest item) ∧
    (∀ (aliases : List String) (item : Record),
      (∀ a ∈ aliases, ∀ v, item.get? a = some v → v.truthy = false) →
      firstTruthy aliases item = none) ∧
    (∀ (mapping : Mapping) (item : Record) (t : String),
      (∀ e ∈ mapping, e.1 = t → firstTruthy e.2 item = none) →
      (applyMapping mapping item).get? t = none) ∧
    ((applyMapping defaultMapping
        [("price", .num 0), ("cost", .str "9.50"),
         ("sku", .str "A"), ("name", .str "B")]).get? "price"
      = some (.str "9.50")) ∧
    (processItem 7 defaultMapping (0, [], store0)
        [("sku", .num 0), ("name", .str "B")]
      = (0, [skuError [("sku", .num 0), ("name", .str "B")]], store0)) := by
  refine ⟨?_, ?_, ?_, by decide, by decide⟩
  · intro a rest item v ha hv
    unfold firstTruthy
    simp [List.findSome?, ha, hv]
  · intro aliases item h
    induction aliases with
    | nil => rfl
    | cons a rest ih =>
      unfold firstTruthy
      simp only [List.findSome?]
      match ha : item.get? a with
      | none =>
        simpa [firstTruthy] using
          ih (fun a' ha' => h a' (List.mem_cons_of_mem _ ha'))
      | some w =>
        have := h a (List.mem_cons_self a rest) w ha
        simp only [this]
        simpa [firstTruthy] using
          ih (fun a' ha' => h a' (List.mem_cons_of_mem _ ha'))
  · exact applyMapping_get_none

/-- Witness for C9: falling through a falsy `price` of 0 to `cost`. -/
theorem falsy_alias_skipped_witness :
    firstTruthy ["price", "cost"]
      [("price", Value.num 0), ("cost", Value.str "9.50")] =
      firstTruthy ["cost"]
        [("price", Value.num 0), ("cost", Value.str "9.50")] :=
  falsy_alias_skipped.1 "price" ["cost"]
    [("price", Value.num 0), ("cost", Value.str "9.50")]
    (Value.num 0) (by decide) (by decide)

/-- C2: a raw record in which no alias of `sku` (respectively, of `name`,
when a sku was found) carries a truthy value is rejected: the step appends
exactly one record-level error, leaves the store untouched, and the batch
continues with the next record (the batch result is that of the remaining
records with the error inserted in order). -/
theorem required_fields_reject :
    (∀ (mapping : Mapping) (item : Record) (vendorId count : Nat)
       (errors : List String) (store : Store),
      (∀ e ∈ effectiveMapping mapping, e.1 = "sku" →
        firstTruthy e.2 item = none) →
      processItem vendorId (effectiveMapping mapping)
          (count, errors, store) item =
        (count, errors ++ [skuError item], store)) ∧
    (∀ (mapping : Mapping) (item : Record) (vendorId count : Nat)
       (errors : List String) (store : Store) (sv : Value),
      (applyMapping (effectiveMapping mapping) item).get? "sku" = some sv →
      sv.truthy = true →
      (∀ e ∈ effectiveMapping mapping, e.1 = "name" →
        firstTruthy e.2 item = none) →
      processItem vendorId (effectiveMapping mapping)
          (count, errors, store) item =
        (count, errors ++ [nameError item], store)) ∧
    (∀ (mapping : Mapping) (item : Record) (vendorId : Nat) (env : Env)
       (rest : List Record),
      env.vendors.contains vendorId = true →
      (∀ e ∈ effectiveMapping mapping, e.1 = "sku" →
        firstTruthy e.2 item = none) →
      processMappedData (item :: rest) vendorId mapping env =
        ((processMappedData rest vendorId mapping env).1,
         skuError item :: (processMappedData rest vendorId mapping env).2.1,
         (processMappedData rest vendorId mapping env).2.2)) := by
  refine ⟨?_, ?_, ?_⟩
  · intro mapping item vendorId count errors store h
    exact processItem_sku_none vendorId (effectiveMapping mapping)
      count errors store item (applyMapping_get_none _ item "sku" h)
  · intro mapping item vendorId count errors store sv hs hst h
    exact processItem_name_none vendorId (effectiveMapping mapping)
      count errors store item sv hs hst
      (applyMapping_get_none _ item "name" h)
  · intro mapping item vendorId env rest hv h
    unfold processMappedData
    rw [if_neg (by simpa using hv), if_neg (by simpa using hv)]
    simp only [List.foldl_cons]
    rw [processItem_sku_none vendorId (effectiveMapping mapping)
      0 [] env.store item (applyMapping_get_none _ item "sku" h)]
    have hpre := foldl_error_front vendorId (effectiveMapping mapping)
      [skuError item] rest 0 [] env.store
    simpa using hpre

/-- Witness for C2: a record whose only sku alias is empty is rejected
with one error against the unchanged empty store. -/
theorem required_fields_reject_witness :
    processItem 1 (effectiveMapping []) (0, [], store0)
        [("sku", Value.str ""), ("name", Value.str "N")] =
      (0, [skuError [("sku", Value.str ""), ("name", Value.str "N")]],
       store0) :=
  required_fields_reject.1 [] [("sku", Value.str ""), ("name", Value.str "N")]
    1 0 [] store0 (by decide)

/-- C3: the per-record import returns (number of records successfully
written, ordered error list) with exactly one error per failed record and
no abort; a 5-record batch whose third record lacks every `name` alias
returns `(4, [the error mentioning record 3])`; a clean 3-row CSV with
columns sku, name, price against an empty store returns `(3, [])` and
creates exactly 3 vendor-product rows for the vendor. -/
theorem import_result_counts :
    (∀ (data : List Record) (vendorId : Nat) (mapping : Mapping)
       (env : Env),
      env.vendors.contains vendorId = true →
      (processMappedData data vendorId mapping env).1 +
        (processMappedData data vendorId mapping env).2.1.length =
      data.length) ∧
    ((processMappedData
        [[("sku", .str "SKU1"), ("name", .str "Item 1")],
         [("sku", .str "SKU2"), ("name", .str "Item 2")],
         [("sku", .str "SKU3"), ("price", .str "3.00")],
         [("sku", .str "SKU4"), ("name", .str "Item 4")],
         [("sku", .str "SKU5"), ("name", .str "Item 5")]] 1 [] env0).1 = 4 ∧
     (processMappedData
        [[("sku", .str "SKU1"), ("name", .str "Item 1")],
         [("sku", .str "SKU2"), ("name", .str "Item 2")],
         [("sku", .str "SKU3"), ("price", .str "3.00")],
         [("sku", .str "SKU4"), ("name", .str "Item 4")],
         [("sku", .str "SKU5"), ("name", .str "Item 5")]] 1 [] env0).2.1 =
       [nameError [("sku", .str "SKU3"), ("price", .str "3.00")]]) ∧
    ((importFromFile "products.csv"
        (.ok [[("sku", .str "A1"), ("name", .str "N1"), ("price", .str "1.00")],
              [("sku", .str "A2"), ("name", .str "N2"), ("price", .str "2.00")],
              [("sku", .str "A3"), ("name", .str "N3"), ("price", .str "3.00")]])
        1 [] env0).1 = 3 ∧
     (importFromFile "products.csv"
        (.ok [[("sku", .str "A1"), ("name", .str "N1"), ("price", .str "1.00")],
              [("sku", .str "A2"), ("name", .str "N2"), ("price", .str "2.00")],
              [("sku", .str "A3"), ("name", .str "N3"), ("price", .str "3.00")]])
        1 [] env0).2.1 = [] ∧
     (importFromFile "products.csv"
        (.ok [[("sku", .str "A1"), ("name", .str "N1"), ("price", .str "1.00")],
              [("sku", .str "A2"), ("name", .str "N2"), ("price", .str "2.00")],
              [("sku", .str "A3"), ("name", .str "N3"), ("price", .str "3.00")]])
        1 [] env0).2.2.vendorRowCount 1 = 3) := by
  refine ⟨?_, by decide, by decide⟩
  intro data vendorId mapping env hv
  unfold processMappedData
  rw [if_neg (by simpa using hv)]
  simpa using foldl_count vendorId (effectiveMapping mapping) data 0 [] env.store

/-- Witness for C3: a two-record batch with one missing-name failure
reports one success plus one error. -/
theorem import_result_counts_witness :
    (processMappedData
        [[("sku", Value.str "A"), ("name", Value.str "N")],
         [("sku", Value.str "B")]] 1 [] env0).1 +
      (processMappedData
        [[("sku", Value.str "A"), ("name", Value.str "N")],
         [("sku", Value.str "B")]] 1 [] env0).2.1.length = 2 :=
  import_result_counts.1
    [[("sku", Value.str "A"), ("name", Value.str "N")],
     [("sku", Value.str "B")]] 1 [] env0 (by decide)

theorem map_replace_id_no_hit (rowId : Nat) (d : Record) :
    ∀ (t : List Row), (∀ r ∈ t, r.id ≠ rowId) →
      t.map (fun r => if r.id = rowId then Row.mk r.id d else r) = t := by
  intro t
  induction t with
  | nil => intro _; rfl
  | cons r rest ih =>
    intro h
    simp only [List.map_cons,
      if_neg (h r (List.mem_cons_self r rest)),
      List.cons.injEq, true_and]
    exact ih (fun r' hr' => h r' (List.mem_cons_of_mem _ hr'))

/-- Updating a row in place keeps the list of row identities. -/
theorem updateRow_ids (st : Store) (rowId : Nat) (d : Record) :
    (st.updateRow rowId d).rows.map Row.id = st.rows.map Row.id := by
  unfold Store.updateRow
  simp only [List.map_map]
  apply List.map_congr_left
  intro r _
  by_cases h : r.id = rowId <;> simp [h]

/-- Updating the unique row carrying `rowId` with data for the same vendor
keeps the vendor's row count. -/
theorem vendorRowCount_updateRow (v : Nat) (d : Record) (row : Row)
    (hnew : (d.get? "vendor_id" == some (.num v)) =
            (row.data.get? "vendor_id" == some (.num v))) :
    ∀ (rows : List Row), (rows.map Row.id).Nodup → row ∈ rows →
      (List.filter (fun r => r.data.get? "vendor_id" == some (.num v))
        (rows.map (fun r => if r.id = row.id then Row.mk r.id d else r))).length =
      (List.filter (fun r => r.data.get? "vendor_id" == some (.num v))
        rows).length := by
  intro rows
  induction rows with
  | nil => intro _ hmem; cases hmem
  | cons r rest ih =>
    intro hnodup hmem
    simp only [List.map_cons, List.nodup_cons] at hnodup
    rcases List.mem_cons.mp hmem with heq | hmem'
    · subst heq
      have hrest : ∀ r' ∈ rest, r'.id ≠ row.id := by
        intro r' hr' hcontra
        exact hnodup.1 (hcontra ▸ List.mem_map_of_mem Row.id hr')
      rw [List.map_cons, if_pos rfl, map_replace_id_no_hit row.id d rest hrest]
      simp only [List.filter]
      rw [hnew]
      cases row.data.get? "vendor_id" == some (.num v) <;> simp
    · have hne : r.id ≠ row.id := by
        intro hcontra
        exact hnodup.1 (hcontra ▸ List.mem_map_of_mem Row.id hmem')
      rw [List.map_cons, if_neg hne]
      simp only [List.filter]
      cases r.data.get? "vendor_id" == some (.num v) <;>
        simp [ih hnodup.2 hmem']

/-- Inserting a row for the vendor grows the vendor's row count by one. -/
theorem vendorRowCount_createRow (st : Store) (d : Record) (v : Nat)
    (h : (d.get? "vendor_id" == some (.num v)) = true) :
    (st.createRow d).1.vendorRowCount v = st.vendorRowCount v + 1 := by
  unfold Store.createRow Store.vendorRowCount
  simp [List.filter_append, h]

/-- C1: a canonical record whose mapped sku matches an existing
(vendor, sku) row is written by updating that row in place — the row
identities of the store are unchanged, the matched identity now carries
the canonical record, and the vendor's row count is unchanged; a record
matching no existing (vendor, sku) pair is written as a new row — the
store grows by one row and the vendor's row count by exactly one. -/
theorem upsert_update_or_insert
    (vendorId : Nat) (mapping : Mapping) (count : Nat)
    (errors : List String) (store : Store) (item : Record) (sv nv : Value)
    (hs : (applyMapping mapping item).get? "sku" = some sv)
    (hst : sv.truthy = true)
    (hn : (applyMapping mapping item).get? "name" = some nv)
    (hnt : nv.truthy = true)
    (hnodup : (store.rows.map Row.id).Nodup) :
    (∀ row, store.getByVendorSku vendorId sv = some row →
      (processItem vendorId mapping (count, errors, store) item).2.2.rows.map
          Row.id = store.rows.map Row.id ∧
      Row.mk row.id
          ((applyMapping mapping item).insert "vendor_id" (.num vendorId)) ∈
        (processItem vendorId mapping (count, errors, store) item).2.2.rows ∧
      (processItem vendorId mapping
          (count, errors, store) item).2.2.vendorRowCount vendorId =
        store.vendorRowCount vendorId) ∧
    (store.getByVendorSku vendorId sv = none →
      (processItem vendorId mapping
          (count, errors, store) item).2.2.rows.length =
        store.rows.length + 1 ∧
      (processItem vendorId mapping
          (count, errors, store) item).2.2.vendorRowCount vendorId =
        store.vendorRowCount vendorId + 1) := by
  constructor
  · intro row hrow
    rw [processItem_update vendorId mapping count errors store item sv nv row
      hs hst hn hnt hrow]
    have hpred := List.find?_some hrow
    simp only [Bool.and_eq_true] at hpred
    have hmem := List.mem_of_find?_eq_some hrow
    refine ⟨updateRow_ids store row.id _, ?_, ?_⟩
    · unfold Store.updateRow
      simp only
      have := List.mem_map_of_mem
        (fun r => if r.id = row.id then
          Row.mk r.id ((applyMapping mapping item).insert "vendor_id"
            (.num vendorId)) else r) hmem
      simpa using this
    · unfold Store.updateRow Store.vendorRowCount
      simp only
      apply vendorRowCount_updateRow vendorId _ row _ store.rows hnodup hmem
      rw [hpred.1]
      simp [Record.get_insert_self]
  · intro hrow
    rw [processItem_insert vendorId mapping count errors store item sv nv
      hs hst hn hnt hrow]
    constructor
    · unfold Store.createRow
      simp
    · apply vendorRowCount_createRow
      simp [Record.get_insert_self]

/-- Witness for C1: against a store holding the matching row
(vendor 1, sku A), the record updates in place keeping identities and
count; against the empty store it inserts, growing the count to one. -/
theorem upsert_update_or_insert_witness :
    ((processItem 1 defaultMapping
        (0, [],
         Store.mk [Row.mk 5 [("vendor_id", Value.num 1),
                             ("sku", Value.str "A")]] 6)
        [("sku", Value.str "A"), ("name", Value.str "N")]).2.2.rows.map
        Row.id = [5] ∧
     (processItem 1 defaultMapping
        (0, [],
         Store.mk [Row.mk 5 [("vendor_id", Value.num 1),
                             ("sku", Value.str "A")]] 6)
        [("sku", Value.str "A"), ("name", Value.str "N")]).2.2.vendorRowCount
        1 = 1) ∧
    (processItem 1 defaultMapping (0, [], store0)
        [("sku", Value.str "A"), ("name", Value.str "N")]).2.2.vendorRowCount
      1 = 1 := by
  have h1 := (upsert_update_or_insert 1 defaultMapping 0 []
    (Store.mk [Row.mk 5 [("vendor_id", Value.num 1),
                         ("sku", Value.str "A")]] 6)
    [("sku", Value.str "A"), ("name", Value.str "N")]
    (Value.str "A") (Value.str "N")
    (by decide) (by decide) (by decide) (by decide) (by decide)).1
    (Row.mk 5 [("vendor_id", Value.num 1), ("sku", Value.str "A")])
    (by decide)
  have h2 := (upsert_update_or_insert 1 defaultMapping 0 [] store0
    [("sku", Value.str "A"), ("name", Value.str "N")]
    (Value.str "A") (Value.str "N")
    (by decide) (by decide) (by decide) (by decide) (by decide)).2
    (by decide)
  refine ⟨⟨?_, ?_⟩, ?_⟩
  · rw [h1.1]; decide
  · rw [h1.2.2]; decide
  · rw [h2.2]; decide

/-- Counterexample to C4: the per-record import pipeline does not preserve
unmapped source fields.  A record carrying the vendor-specific column
`qtynj` is written as a row whose data holds only the mapped fields plus
`vendor_id`: the `qtynj` value is nowhere in the store, and no property
bag is attached. -/
theorem unmapped_fields_discarded_cex :
    (processMappedData
        [[("sku", .str "A"), ("name", .str "N"), ("qtynj", .str "12")]]
        1 [] env0).2.2.rows =
      [Row.mk 1 [("sku", .str "A"), ("name", .str "N"),
                 ("vendor_id", .num 1)]] ∧
    ((processMappedData
        [[("sku", .str "A"), ("name", .str "N"), ("qtynj", .str "12")]]
        1 [] env0).2.2.rows.map (fun r => r.data.get? "qtynj") = [none]) ∧
    ((processMappedData
        [[("sku", .str "A"), ("name", .str "N"), ("qtynj", .str "12")]]
        1 [] env0).2.2.rows.map (fun r => r.data.get? "props") = [none]) := by
  refine ⟨by decide, by decide, by decide⟩

/-- C4 (amended): verbatim preservation of unmapped fields into the open
property bag happens only on the bulk-insert path —
`VendorProduct.bulk_insert` keeps every source field outside its fixed
column list in `props` — while the per-record import pipeline discards
them: its canonical records contain only mapping destination fields plus
`vendor_id`. -/
theorem unmapped_fields_bulk_props_only :
    (∀ (product : Record) (k : String) (val : Value),
      product.get? k = some val → bulkFixedKeys.contains k = false →
      (bulkProps product).get? k = some val) ∧
    (∀ (mapping : Mapping) (item : Record) (vendorId : Nat) (t : String),
      ((applyMapping mapping item).insert "vendor_id"
        (.num vendorId)).get? t ≠ none →
      t ∈ mapping.map Prod.fst ∨ t = "vendor_id") := by
  constructor
  · intro product k val hget hfix
    unfold bulkProps
    unfold Record.get? at hget ⊢
    induction product with
    | nil => simp [List.find?] at hget
    | cons p rest ih =>
      by_cases hp : (p.1 == k) = true
      · have hpk : p.1 = k := by simpa using hp
        have hkeep : (!bulkFixedKeys.contains p.1) = true := by
          rw [hpk, hfix]; rfl
        rw [List.filter_cons, hkeep, if_pos rfl]
        simp only [List.find?, hp]
        simpa [List.find?, hp] using hget
      · have hp' : (p.1 == k) = false := by simpa using hp
        simp only [List.find?, hp'] at hget
        cases hkeep : (!bulkFixedKeys.contains p.1) with
        | false =>
          rw [List.filter_cons, hkeep, if_neg (by simp)]
          exact ih hget
        | true =>
          rw [List.filter_cons, hkeep, if_pos rfl]
          simp only [List.find?, hp']
          exact ih hget
  · intro mapping item vendorId t hget
    by_cases hvid : t = "vendor_id"
    · right; exact hvid
    · left
      rw [Record.get_insert_ne _ _ _ _ (fun h => hvid h.symm)] at hget
      unfold applyMapping at hget
      have main : ∀ (m : Mapping) (pd : Record),
          (m.foldl (fun pd e =>
            match firstTruthy e.2 item with
            | some v => pd.insert e.1 v
            | none => pd) pd).get? t ≠ none →
          pd.get? t ≠ none ∨ t ∈ m.map Prod.fst := by
        intro m
        induction m with
        | nil => intro pd h; exact Or.inl h
        | cons e rest ih =>
          intro pd h
          simp only [List.foldl_cons] at h
          rcases ih _ h with hstep | hmem
          · match hv : firstTruthy e.2 item with
            | none => rw [hv] at hstep; exact Or.inl hstep
            | some v =>
              rw [hv] at hstep
              by_cases het : e.1 = t
              · exact Or.inr (by simp [List.map_cons, het])
              · rw [Record.get_insert_ne _ _ _ _ het] at hstep
                exact Or.inl hstep
          · exact Or.inr (List.mem_cons_of_mem _ hmem)
      rcases main mapping [] hget with habs | hmem
      · exact absurd rfl habs
      · exact hmem

/-- Witness for the amended C4: the bulk path keeps the vendor-specific
`qtynj` column in `props`; the mapped record of the pipeline contains only
destination fields. -/
theorem unmapped_fields_bulk_props_only_witness :
    (bulkProps [("sku", Value.str "A"), ("color", Value.str "red")]).get?
        "color" = some (Value.str "red") ∧
    ("name" ∈ (defaultMapping.map Prod.fst) ∨ "name" = "vendor_id") := by
  constructor
  · exact unmapped_fields_bulk_props_only.1
      [("sku", Value.str "A"), ("color", Value.str "red")]
      "color" (Value.str "red") (by decide) (by decide)
  · exact unmapped_fields_bulk_props_only.2 defaultMapping
      [("name", Value.str "N")] 1 "name" (by decide)

/-- Counterexample to C8: when the download of a matching remote file
fails, the temporary local file just created for it is not removed — the
reader returns with `temp_data.csv` still on disk. -/
theorem sftp_temp_left_on_download_failure_cex :
    (importFromSftp "*" (.ok [("data.csv", .fail "connection reset")])
        1 [] env0).2 = ["temp_data.csv"] ∧
    (importFromSftp "*" (.ok [("data.csv", .fail "connection reset")])
        1 [] env0).2 ≠ [] := by
  refine ⟨by decide, by decide⟩

theorem sftpLoop_leftover (vendorId : Nat) (mapping : Mapping) :
    ∀ (files : List (String × DownloadOutcome)) (env : Env) (count : Nat)
      (errors : List String),
      (sftpLoop files vendorId mapping env count errors []).2 =
        firstFailTemp files := by
  intro files
  induction files with
  | nil => intro env count errors; rfl
  | cons f rest ih =>
    intro env count errors
    match f with
    | (file, .fail e) => simp [sftpLoop, firstFailTemp]
    | (file, .ok content) =>
      simp only [sftpLoop]
      rw [if_neg (by simp)]
      rw [show (List.filter (fun f => !(f == tempName file))
        ([] ++ [tempName file])) = [] by simp]
      exact ih _ _ _

/-- C8 (amended): the SFTP reader removes every temporary file on every
path where the download succeeded — including files whose
subsequent import reports errors — but a failed download aborts the run leaving
exactly the temp file created for the first failing file on disk (and a
connection-phase failure creates no temp file at all). -/
theorem sftp_temp_cleanup_amended :
    (∀ (filePattern : String) (listing : List (String × DownloadOutcome))
       (vendorId : Nat) (mapping : Mapping) (env : Env),
      (importFromSftp filePattern (.ok listing) vendorId mapping env).2 =
        firstFailTemp
          (listing.filter (fun f => matchesPattern f.1 filePattern))) ∧
    (∀ (filePattern e : String) (vendorId : Nat) (mapping : Mapping)
       (env : Env),
      (importFromSftp filePattern (.connectFail e) vendorId mapping env).2 =
        []) := by
  constructor
  · intro filePattern listing vendorId mapping env
    rcases hfiles : listing.filter (fun f => matchesPattern f.1 filePattern)
      with _ | ⟨f, rest⟩
    · simp [importFromSftp, hfiles, firstFailTemp]
    · simp only [importFromSftp, hfiles]
      rw [if_neg (by simp)]
      exact sftpLoop_leftover vendorId mapping (f :: rest) env 0 []
  · intro _ _ _ _ _
    rfl

theorem sftpLoop_first_fail (vendorId : Nat) (mapping : Mapping)
    (file e : String) :
    ∀ (files : List (String × DownloadOutcome)) (env : Env) (count : Nat)
      (errors : List String) (tempFiles : List String),
      firstFail files = some (file, e) →
      ∃ st, (sftpLoop files vendorId mapping env count errors
        tempFiles).1 = (0, ["SFTP error: " ++ e], st) := by
  intro files
  induction files with
  | nil => intro env count errors tempFiles h; cases h
  | cons f rest ih =>
    intro env count errors tempFiles h
    match f with
    | (file', .fail e') =>
      have : file' = file ∧ e' = e := by
        simpa [firstFail] using h
      rcases this with ⟨_, he⟩
      subst he
      exact ⟨env.store, rfl⟩
    | (file', .ok content) =>
      simp only [firstFail] at h
      simp only [sftpLoop]
      exact ih _ _ _ _ h

/-- C6: every source reader turns a failed read into the value
`(0, [one human-readable error string])` instead of an exception — the
file reader on any failing outcome or unsupported extension, the API
reader on any failing outcome, and the SFTP reader on a connection
failure or on the first failing download — and a failed read leaves the
store untouched except for files already imported before an SFTP
mid-batch failure.  (Totality of the embedding functions is the model of
"never raises past its boundary".) -/
theorem readers_fail_closed :
    (∀ (filePath : String) (outcome : FileOutcome) (vendorId : Nat)
       (mapping : Mapping) (env : Env),
      outcome.failing = true →
      ∃ e, importFromFile filePath outcome vendorId mapping env =
        (0, [e], env.store)) ∧
    (∀ (filePath : String) (records : List Record) (vendorId : Nat)
       (mapping : Mapping) (env : Env),
      strLower (fileExtension filePath) ∉
        ([".csv", ".xlsx", ".xls", ".json", ".xml"] : List String) →
      importFromFile filePath (.ok records) vendorId mapping env =
        (0, ["Unsupported file format: " ++ strLower (fileExtension filePath)],
         env.store)) ∧
    (∀ (outcome : ApiOutcome) (vendorId : Nat) (mapping : Mapping)
       (env : Env),
      outcome.failing = true →
      ∃ e, importFromApi outcome vendorId mapping env =
        (0, [e], env.store)) ∧
    (∀ (filePattern e : String) (vendorId : Nat) (mapping : Mapping)
       (env : Env),
      (importFromSftp filePattern (.connectFail e) vendorId mapping
        env).1 = (0, ["SFTP error: " ++ e], env.store)) ∧
    (∀ (filePattern : String) (listing : List (String × DownloadOutcome))
       (file e : String) (vendorId : Nat) (mapping : Mapping) (env : Env),
      firstFail (listing.filter (fun f => matchesPattern f.1 filePattern)) =
        some (file, e) →
      ∃ st, (importFromSftp filePattern (.ok listing) vendorId mapping
        env).1 = (0, ["SFTP error: " ++ e], st)) := by
  refine ⟨?_, ?_, ?_, ?_, ?_⟩
  · intro filePath outcome vendorId mapping env hfail
    unfold importFromFile
    dsimp only
    cases outcome with
    | ok records => simp [FileOutcome.failing] at hfail
    | notFound => split_ifs <;> exact ⟨_, rfl⟩
    | parseError e => split_ifs <;> exact ⟨_, rfl⟩
    | otherError e => split_ifs <;> exact ⟨_, rfl⟩
  · intro filePath records vendorId mapping env hext
    unfold importFromFile
    dsimp only
    rw [if_neg (by intro hc; exact hext (by simp [hc])),
        if_neg (by intro hc; rcases hc with hc | hc <;> exact hext (by simp [hc])),
        if_neg (by intro hc; exact hext (by simp [hc])),
        if_neg (by intro hc; exact hext (by simp [hc]))]
  · intro outcome vendorId mapping env hfail
    cases outcome with
    | ok items => simp [ApiOutcome.failing] at hfail
    | requestFailed e => exact ⟨_, rfl⟩
    | notJson => exact ⟨_, rfl⟩
    | otherError e => exact ⟨_, rfl⟩
  · intro filePattern e vendorId mapping env
    rfl
  · intro filePattern listing file e vendorId mapping env h
    rcases hfiles : listing.filter (fun f => matchesPattern f.1 filePattern)
      with _ | ⟨f, rest⟩
    · rw [hfiles] at h; cases h
    · rw [hfiles] at h
      simp only [importFromSftp, hfiles]
      rw [if_neg (by simp)]
      exact sftpLoop_first_fail vendorId mapping file e (f :: rest)
        env 0 [] [] h

/-- Witness for C6: a missing CSV file, a failed HTTP request, an
unsupported extension and a failing SFTP download all yield
`(0, [error])`. -/
theorem readers_fail_closed_witness :
    (∃ e, importFromFile "products.csv" .notFound 1 [] env0 =
      (0, [e], store0)) ∧
    (importFromFile "products.pdf" (.ok []) 1 [] env0 =
      (0, ["Unsupported file format: " ++ strLower (fileExtension
        "products.pdf")], store0)) ∧
    (∃ e, importFromApi (.requestFailed "timeout") 1 [] env0 =
      (0, [e], store0)) ∧
    (∃ st, (importFromSftp "*" (.ok [("data.csv", .fail "reset")])
      1 [] env0).1 = (0, ["SFTP error: " ++ "reset"], st)) := by
  refine ⟨?_, ?_, ?_, ?_⟩
  · exact readers_fail_closed.1 "products.csv" .notFound 1 [] env0 (by decide)
  · exact readers_fail_closed.2.1 "products.pdf" [] 1 [] env0 (by decide)
  · exact readers_fail_closed.2.2.1 (.requestFailed "timeout") 1 [] env0
      (by decide)
  · exact readers_fail_closed.2.2.2.2 "*" [("data.csv", .fail "reset")]
      "data.csv" "reset" 1 [] env0 (by decide)

theorem ediStep_blank (st : List Record × Record) (seg : String)
    (h : strTrim seg = "") : ediStep st seg = st := by
  unfold ediStep
  rw [if_pos h]

theorem ediFlush_eq (products : List Record) (current : Record) :
    (if current.isEmpty = true then products else products ++ [current]) =
      products ++ ediFlush current := by
  unfold ediFlush
  cases hc : current.isEmpty <;> simp [hc]

theorem ediStep_lin (products : List Record) (current : Record)
    (seg : String) (h1 : ¬ strTrim seg = "")
    (h2 : (strSplit seg '*').headD "" = "LIN") :
    ediStep (products, current) seg =
      (products ++ ediFlush current, ediSeedSku (strSplit seg '*')) := by
  unfold ediStep
  rw [if_neg h1]
  dsimp only
  rw [if_pos h2]
  cases hg : (strSplit seg '*')[3]? with
  | none => simp [ediSeedSku, hg, ediFlush_eq products current]
  | some e3 => simp [ediSeedSku, hg, ediFlush_eq products current]

theorem ediStep_pid (products : List Record) (current : Record)
    (seg : String) (h1 : ¬ strTrim seg = "")
    (h2 : ¬ (strSplit seg '*').headD "" = "LIN")
    (h3 : (strSplit seg '*').headD "" = "PID") :
    ediStep (products, current) seg =
      (products, ediSetName (strSplit seg '*') current) := by
  unfold ediStep
  rw [if_neg h1]
  dsimp only
  rw [if_neg h2, if_pos h3]
  cases hg : (strSplit seg '*')[5]? with
  | none => simp [ediSetName, hg]
  | some e5 => simp [ediSetName, hg]

theorem ediStep_ctp (products : List Record) (current : Record)
    (seg : String) (h1 : ¬ strTrim seg = "")
    (h2 : ¬ (strSplit seg '*').headD "" = "LIN")
    (h3 : ¬ (strSplit seg '*').headD "" = "PID")
    (h4 : (strSplit seg '*').headD "" = "CTP") :
    ediStep (products, current) seg =
      (products, ediSetPrice (strSplit seg '*') current) := by
  unfold ediStep
  rw [if_neg h1]
  dsimp only
  rw [if_neg h2, if_neg h3, if_pos h4]
  cases hg : (strSplit seg '*')[3]? with
  | none => simp [ediSetPrice, hg]
  | some e3 =>
    cases hp : parseFloat? e3 with
    | none => simp [ediSetPrice, hg, hp]
    | some q => simp [ediSetPrice, hg, hp]

theorem ediStep_other (products : List Record) (current : Record)
    (seg : String) (h1 : ¬ strTrim seg = "")
    (h2 : ¬ (strSplit seg '*').headD "" = "LIN")
    (h3 : ¬ (strSplit seg '*').headD "" = "PID")
    (h4 : ¬ (strSplit seg '*').headD "" = "CTP") :
    ediStep (products, current) seg = (products, current) := by
  unfold ediStep
  rw [if_neg h1]
  dsimp only
  rw [if_neg h2, if_neg h3, if_neg h4]

theorem ediFold_spec :
    ∀ (segs : List String) (products : List Record) (current : Record),
      (if (List.foldl ediStep (products, current) segs).2.isEmpty = true
       then (List.foldl ediStep (products, current) segs).1
       else (List.foldl ediStep (products, current) segs).1 ++
         [(List.foldl ediStep (products, current) segs).2]) =
      products ++ ediSpecGo segs current := by
  intro segs
  induction segs with
  | nil =>
    intro products current
    simp only [List.foldl_nil, ediSpecGo]
    exact ediFlush_eq products current
  | cons seg rest ih =>
    intro products current
    simp only [List.foldl_cons]
    by_cases h1 : strTrim seg = ""
    · rw [ediStep_blank (products, current) seg h1, ih products current]
      conv_rhs => rw [ediSpecGo]
      rw [if_pos h1]
    · by_cases h2 : (strSplit seg '*').headD "" = "LIN"
      · rw [ediStep_lin products current seg h1 h2, ih]
        conv_rhs => rw [ediSpecGo]
        rw [if_neg h1]
        dsimp only
        rw [if_pos h2, List.append_assoc]
      · by_cases h3 : (strSplit seg '*').headD "" = "PID"
        · rw [ediStep_pid products current seg h1 h2 h3, ih]
          conv_rhs => rw [ediSpecGo]
          rw [if_neg h1]
          dsimp only
          rw [if_neg h2, if_pos h3]
        · by_cases h4 : (strSplit seg '*').headD "" = "CTP"
          · rw [ediStep_ctp products current seg h1 h2 h3 h4, ih]
            conv_rhs => rw [ediSpecGo]
            rw [if_neg h1]
            dsimp only
            rw [if_neg h2, if_neg h3, if_pos h4]
          · rw [ediStep_other products current seg h1 h2 h3 h4, ih]
            conv_rhs => rw [ediSpecGo]
            rw [if_neg h1]
            dsimp only
            rw [if_neg h2, if_neg h3, if_neg h4]

/-- C7: the EDI extraction of `import_from_edi` coincides, on every input
text, with the spec-level description: split on `~` into segments and on
`*` into elements; each `LIN` segment flushes any open product and starts
a new one seeding `sku` from element 3 when present; `PID` sets `name`
from element 5; `CTP` sets `price` by numeric parse of element 3, leaving
it unset on parse failure; the last open product is flushed at
end-of-input. -/
theorem edi_parser_refines_spec :
    ∀ (ediData : String), ediExtract ediData = ediExtractSpec ediData := by
  intro s
  unfold ediExtract ediExtractSpec
  dsimp only
  have h := ediFold_spec (strSplit s '~') [] []
  rcases hf : List.foldl ediStep ([], []) (strSplit s '~') with ⟨ps, cur⟩
  rw [hf] at h
  simp only at h
  simpa using h

end VendorCatalog
